import Mathlib

/-!
Shallow embedding of the Auth0 → Descope migration tool
(`src/main.py`, `src/migration_utils.py`) and proofs about it.

Modelling conventions, used throughout:
* Python strings are Lean `String`; the Python `sub in s` substring test and
  `s.split(sep)` are re-implemented on `List Char` (`pyIn`, `takeUntilDash`)
  so that every definition evaluates by kernel reduction.
* HTTP traffic is an oracle: the retry layer takes `Nat → AttemptOutcome`
  (one outcome per issued request), listing fetchers take `Nat → Option Response`
  (the retry layer's result per page, `Option.none` being the `None` failure
  sentinel), and the write layer takes `Event → Option Nat` (the HTTP status
  of each write call, `Option.none` again being the retry layer's `None`,
  whose dereference raises `AttributeError`).
* Side effects are traces: each modelled function returns the ordered list of
  `Event`s it performs.  Routine log lines are not modelled, except the
  `logging.warning("User failed to create ...")` line, which is the only
  failure record the user pipeline produces (`Event.warnFailedUser`).
* A propagating Python exception is the `Bool` component of a
  `List Event × Bool` result (`true` = an exception escaped; the trace is
  what happened before it).  In `create_descope_user` the surrounding
  `try/except` absorbs it.
* Python `None` return values and tuple unpacking in `main.py` are modelled
  with a small `PyVal` type and `pyUnpackN`.
-/

namespace AuthMig

/-- Python's substring test `sub in s` on char lists: some suffix of `s`
starts with `sub`. -/
def listHas (sub : List Char) : List Char → Bool
  | [] => decide (sub = [])
  | c :: t => sub.isPrefixOf (c :: t) || listHas sub t

/-- Python's `sub in s` operator on strings (`"Username" in identity["connection"]`
and friends in `create_descope_user`). -/
def pyIn (sub s : String) : Bool :=
  listHas sub.data s.data

/-- The characters before the first `'-'` (all of them when there is none):
Python's `s.split("-")[0]`. -/
def takeUntilDash : List Char → List Char
  | [] => []
  | c :: t => if c = '-' then [] else c :: takeUntilDash t

/-- Python's `connection.split("-")[0]` as used in `create_descope_user`. -/
def splitDashHead (s : String) : String :=
  ⟨takeUntilDash s.data⟩

/-- Python's full `s.split("-")`, used only by the spec-side formalisation of
the canonicalization rule (rule 3 talks about the split's first element). -/
def splitOnDash : List Char → List (List Char)
  | [] => [[]]
  | c :: t =>
    if c = '-' then [] :: splitOnDash t
    else
      match splitOnDash t with
      | [] => [[c]]
      | h :: r => (c :: h) :: r

/-- Python truthiness of an optional string (`if user.get("email"):`):
present and non-empty. -/
def pyTruthy : Option String → Bool
  | Option.none => false
  | Option.some s => decide (s ≠ "")

/-- One entry of a source user's `identities` array (`migration_utils.py`,
`create_descope_user` reads `connection`, `provider`, `user_id`). -/
structure Identity where
  connection : String
  provider : String
  user_id : String
deriving DecidableEq, Repr

/-- An Auth0 user record as `create_descope_user` reads it.  Fields read with
`user.get(...)` (which may yield `None`) are `Option`s; the boolean fields are
read with a `False` default, so they are plain `Bool`s. -/
structure Auth0User where
  email : Option String
  email_verified : Bool
  phone_number : Option String
  phone_verified : Bool
  name : Option String
  picture : Option String
  blocked : Bool
  identities : List Identity
deriving DecidableEq, Repr

/-- An Auth0 permission record (`permission_name`, `description`). -/
structure Permission where
  permission_name : String
  description : String
deriving DecidableEq, Repr

/-- An Auth0 role record (`id`, `name`, `description`). -/
structure Role where
  id : String
  name : String
  description : String
deriving DecidableEq, Repr

/-- An Auth0 organization record (`id`, `display_name`). -/
structure Org where
  id : String
  display_name : String
deriving DecidableEq, Repr

/-- A member record from a role-members or organization-members listing;
`process_roles` and `process_auth0_organizations` read only `user["email"]`. -/
structure Member where
  email : String
deriving DecidableEq, Repr

/-- The loginId derivation of `create_descope_user` (migration_utils.py,
lines 304–312), one identity at a time.  `user.get("email")` /
`user.get("phone_number")` may be Python `None`, hence `Option String`. -/
def derive_loginId (user : Auth0User) (ident : Identity) : Option String :=
  if pyIn "Username" ident.connection then user.email
  else if pyIn "sms" ident.connection then user.phone_number
  else if pyIn "-" ident.connection then
    Option.some (splitDashHead ident.connection ++ "-" ++ ident.user_id)
  else
    Option.some (ident.connection ++ "-" ++ ident.user_id)

/-- The JSON body `create_descope_user` builds for the user-create call
(`payload_data`, lines 314–335): base fields, then `email`/`verifiedEmail`
only when the email is truthy, then `phone`/`verifiedPhone` only when the
identity's provider is `"sms"`. -/
structure UserPayload where
  loginId : Option String
  displayName : Option String
  invite : Bool
  test : Bool
  picture : Option String
  attrConnection : String
  freshlyMigrated : Bool
  email : Option String
  verifiedEmail : Option Bool
  phone : Option String
  verifiedPhone : Option Bool
deriving DecidableEq, Repr

/-- The payload construction of `create_descope_user` for one identity. -/
def mkPayload (user : Auth0User) (ident : Identity) : UserPayload :=
  let base : UserPayload :=
    { loginId := derive_loginId user ident
      displayName := user.name
      invite := false
      test := false
      picture := user.picture
      attrConnection := ident.connection
      freshlyMigrated := true
      email := Option.none
      verifiedEmail := Option.none
      phone := Option.none
      verifiedPhone := Option.none }
  let withEmail :=
    if pyTruthy user.email then
      { base with email := user.email, verifiedEmail := Option.some user.email_verified }
    else base
  if ident.provider = "sms" then
    { withEmail with
        phone := user.phone_number, verifiedPhone := Option.some user.phone_verified }
  else withEmail

/-- `status = "disabled" if user.get("blocked", False) else "enabled"`. -/
def userStatus (user : Auth0User) : String :=
  if user.blocked then "disabled" else "enabled"

/-- One observable API interaction of the migration run.  Write events carry
the payload fields the source puts in the request body; `read*` events mark
the nested listing fetches issued by the process functions; `warnFailedUser`
is the `logging.warning("User failed to create ...")` record (the only
failure record the user pipeline keeps). -/
inductive Event where
  | createUser (p : UserPayload)
  | updateStatus (loginId : Option String) (status : String)
  | warnFailedUser (u : Auth0User)
  | createPermission (name description : String)
  | createRole (name description : String) (permissionNames : List String)
  | addUserToRole (loginId roleName : String)
  | createTenant (name id : String)
  | addUserToTenant (tenantId loginId : String)
  | readPermissions (roleId : String)
  | readRoleUsers (roleId : String)
  | readOrgMembers (orgId : String)
deriving DecidableEq, Repr

/-- The events that are POSTs to the Descope (target) API: user create/update,
status, permission, role, tenant and membership writes. -/
def isWriteEvent : Event → Bool
  | Event.createUser _ => true
  | Event.updateStatus _ _ => true
  | Event.createPermission _ _ => true
  | Event.createRole _ _ _ => true
  | Event.addUserToRole _ _ => true
  | Event.createTenant _ _ => true
  | Event.addUserToTenant _ _ => true
  | _ => false

/-- A write oracle: the HTTP status the retry layer hands back for a write
call, `Option.none` being its `None` failure sentinel (whose
`.status_code` dereference raises `AttributeError` in the source). -/
abbrev WriteOracle := Event → Option Nat

/-- The body of `create_descope_user`'s per-identity iteration: build the
payload, `create_or_update_user` (success iff status 200), and on success
`update_user_status`.  Result: (events performed, an exception escaped).
On a non-200 create the source logs `User failed to create` and continues
with the next identity. -/
def processIdentity (wo : WriteOracle) (user : Auth0User) (ident : Identity) :
    List Event × Bool :=
  let p := mkPayload user ident
  let ev := Event.createUser p
  match wo ev with
  | Option.none => ([ev], true)
  | Option.some code =>
    if code = 200 then
      let stEv := Event.updateStatus p.loginId (userStatus user)
      match wo stEv with
      | Option.none => ([ev, stEv], true)
      | Option.some _ => ([ev, stEv], false)
    else ([ev, Event.warnFailedUser user], false)

/-- The identity loop of `create_descope_user`, inside its `try`: an escaping
exception stops the loop and the `except` block logs the user-failed warning. -/
def createUserLoop (wo : WriteOracle) (user : Auth0User) : List Identity → List Event
  | [] => []
  | i :: rest =>
    let r := processIdentity wo user i
    if r.2 then r.1 ++ [Event.warnFailedUser user]
    else r.1 ++ createUserLoop wo user rest

/-- `create_descope_user` (migration_utils.py, lines 296–357): iterate the
user's identities, creating one Descope user per identity; any exception is
caught at the user boundary. -/
def create_descope_user (wo : WriteOracle) (user : Auth0User) : List Event :=
  createUserLoop wo user user.identities

/-- The user loop of `process_users` in live mode. -/
def createUsersAll (wo : WriteOracle) : List Auth0User → List Event
  | [] => []
  | u :: rest => create_descope_user wo u ++ createUsersAll wo rest

/-- A Python value, as far as `main.py`'s tuple unpacking needs: the process
functions of migration_utils.py end without a `return`, i.e. return `None`. -/
inductive PyVal where
  | none
  | bool (b : Bool)
  | int (n : Int)
  | str (s : String)
  | list (xs : List PyVal)
  | tuple (xs : List PyVal)

/-- Python's `a, b, ... = v` unpacking into `n` names: tuples, lists and
strings of length `n` unpack; anything else raises `TypeError`. -/
def pyUnpackN (n : Nat) : PyVal → Except String (List PyVal)
  | PyVal.tuple xs =>
    if xs.length = n then Except.ok xs
    else Except.error "ValueError: unpack mismatch"
  | PyVal.list xs =>
    if xs.length = n then Except.ok xs
    else Except.error "ValueError: unpack mismatch"
  | PyVal.str s =>
    if s.data.length = n then Except.ok (s.data.map fun c => PyVal.str ⟨[c]⟩)
    else Except.error "ValueError: unpack mismatch"
  | PyVal.none => Except.error "TypeError: cannot unpack non-iterable NoneType object"
  | _ => Except.error "TypeError: cannot unpack non-iterable object"

/-- `process_users` (lines 477–488): dry run only logs a count; live mode
creates each user.  The function body has no `return` statement, so the
Python value it returns is `None`. -/
def process_users_run (wo : WriteOracle) (api_response_users : List Auth0User)
    (dry_run : Bool) : List Event × PyVal :=
  if dry_run then ([], PyVal.none)
  else (createUsersAll wo api_response_users, PyVal.none)

/-- An HTTP response: its status code and its decoded JSON body (a list for
every listing endpoint the tool reads). -/
structure Response where
  status : Nat
  body : List PyVal

/-- What one attempt inside `api_request_with_retry` observes: a response, a
`requests.exceptions.ReadTimeout`, or another `RequestException`. -/
inductive AttemptOutcome where
  | resp (r : Response)
  | readTimeout
  | otherException

/-- What `api_request_with_retry` produces: the returned response (`none` for
the final `return None`), the backoff sleeps performed (in seconds, in
order), and how many requests were issued. -/
structure RetryResult where
  result : Option Response
  waits : List Nat
  attempts : Nat

/-- The `while retries < max_retries` loop of `api_request_with_retry`
(lines 20–66), with `fuel = max_retries - retries`: a non-429 response
returns at once; a 429 or a read timeout sleeps `5 ** retries` (after the
increment) and retries; another request exception breaks out to `return
None`. -/
def retryLoop (oracle : Nat → AttemptOutcome) : Nat → Nat → List Nat → RetryResult
  | 0, retries, waits => { result := Option.none, waits := waits, attempts := retries }
  | fuel + 1, retries, waits =>
    match oracle retries with
    | AttemptOutcome.resp r =>
      if r.status = 429 then
        retryLoop oracle fuel (retries + 1) (waits ++ [5 ^ (retries + 1)])
      else { result := Option.some r, waits := waits, attempts := retries + 1 }
    | AttemptOutcome.readTimeout =>
      retryLoop oracle fuel (retries + 1) (waits ++ [5 ^ (retries + 1)])
    | AttemptOutcome.otherException =>
      { result := Option.none, waits := waits, attempts := retries + 1 }

/-- `api_request_with_retry(action, url, headers, data, max_retries, timeout)`:
the oracle gives the outcome of each issued request in order.  The source's
default `max_retries` is 4. -/
def api_request_with_retry (oracle : Nat → AttemptOutcome) (max_retries : Nat) :
    RetryResult :=
  retryLoop oracle max_retries 0 []

/-- The per-page result a listing loop sees from the retry layer: the page's
attempt outcomes folded through `api_request_with_retry` with the default
`max_retries = 4`. -/
def pageResultOf (att : Nat → Nat → AttemptOutcome) : Nat → Option Response :=
  fun page => (api_request_with_retry (att page) 4).result

/-- The shared `while True` pagination loop of the six listing fetchers
(e.g. `fetch_auth0_users`, lines 70–96): ask the retry layer for page
`page`; on the `None` sentinel the `response.status_code` access raises
`AttributeError`; a non-200 status logs and returns the accumulated items;
an empty body breaks; otherwise extend and continue.  `fuel` bounds the
number of pages (the result is `Option.none` when it runs out, i.e. the
model cannot decide the unbounded loop). -/
def fetchLoop (pr : Nat → Option Response) :
    Nat → Nat → List PyVal → Option (Except String (List PyVal))
  | 0, _, _ => Option.none
  | fuel + 1, page, acc =>
    match pr page with
    | Option.none =>
      Option.some (Except.error
        "AttributeError: NoneType object has no attribute status_code")
    | Option.some r =>
      if r.status ≠ 200 then Option.some (Except.ok acc)
      else if r.body.isEmpty then Option.some (Except.ok acc)
      else fetchLoop pr fuel (page + 1) (acc ++ r.body)

/-- `fetch_auth0_users` (lines 70–96). -/
def fetch_auth0_users (pr : Nat → Option Response) (fuel : Nat) :
    Option (Except String (List PyVal)) :=
  fetchLoop pr fuel 0 []

/-- `fetch_auth0_roles` (lines 98–124): the same loop against the roles URL. -/
def fetch_auth0_roles (pr : Nat → Option Response) (fuel : Nat) :
    Option (Except String (List PyVal)) :=
  fetchLoop pr fuel 0 []

/-- `get_users_in_role` (lines 126–153): `role` only selects the URL. -/
def get_users_in_role (role : String) (pr : Nat → Option Response) (fuel : Nat) :
    Option (Except String (List PyVal)) :=
  fetchLoop pr fuel 0 []

/-- `get_permissions_for_role` (lines 155–184): `role` only selects the URL. -/
def get_permissions_for_role (role : String) (pr : Nat → Option Response) (fuel : Nat) :
    Option (Except String (List PyVal)) :=
  fetchLoop pr fuel 0 []

/-- `fetch_auth0_organizations` (lines 186–213). -/
def fetch_auth0_organizations (pr : Nat → Option Response) (fuel : Nat) :
    Option (Except String (List PyVal)) :=
  fetchLoop pr fuel 0 []

/-- `fetch_auth0_organization_members` (lines 215–244): `organization` only
selects the URL. -/
def fetch_auth0_organization_members (organization : String)
    (pr : Nat → Option Response) (fuel : Nat) :
    Option (Except String (List PyVal)) :=
  fetchLoop pr fuel 0 []

/-- The permission loop of `create_descope_role_and_permissions` (lines
258–276): the permission's name is appended to `permissionNames` *before*
the create call, so a failed call still contributes its name.  The write's
status only feeds a log line; the `None` sentinel raises on the
`.status_code` access and escapes (there is no `try` here). -/
def createPermsEvents (wo : WriteOracle) : List Permission → List Event × Bool
  | [] => ([], false)
  | p :: rest =>
    let ev := Event.createPermission p.permission_name p.description
    match wo ev with
    | Option.none => ([ev], true)
    | Option.some _ =>
      let r := createPermsEvents wo rest
      (ev :: r.1, r.2)

/-- `create_descope_role_and_permissions` (lines 250–294): create every
permission, then create the role carrying the accumulated
`permissionNames` (the names of *all* permissions of the batch). -/
def create_descope_role_and_permissions (wo : WriteOracle) (role : Role)
    (permissions : List Permission) : List Event × Bool :=
  let pr := createPermsEvents wo permissions
  if pr.2 then (pr.1, true)
  else
    let rev := Event.createRole role.name role.description
      (permissions.map (·.permission_name))
    match wo rev with
    | Option.none => (pr.1 ++ [rev], true)
    | Option.some _ => (pr.1 ++ [rev], false)

/-- The member loop of `process_roles` live mode (lines 507–508):
`add_user_to_descope_role(user["email"], role["name"])` for each member. -/
def addRoleMembers (wo : WriteOracle) (roleName : String) :
    List Member → List Event × Bool
  | [] => ([], false)
  | m :: rest =>
    let ev := Event.addUserToRole m.email roleName
    match wo ev with
    | Option.none => ([ev], true)
    | Option.some _ =>
      let r := addRoleMembers wo roleName rest
      (ev :: r.1, r.2)

/-- One iteration of `process_roles`'s live loop (lines 503–508): fetch the
role's permissions, create permissions and role, fetch the role's members,
associate each member. -/
def processRoleLive (wo : WriteOracle) (gp : String → List Permission)
    (gu : String → List Member) (role : Role) : List Event × Bool :=
  let cr := create_descope_role_and_permissions wo role (gp role.id)
  if cr.2 then (Event.readPermissions role.id :: cr.1, true)
  else
    let ar := addRoleMembers wo role.name (gu role.id)
    (Event.readPermissions role.id :: cr.1
      ++ Event.readRoleUsers role.id :: ar.1, ar.2)

/-- The role loop of `process_roles` live mode. -/
def rolesLive (wo : WriteOracle) (gp : String → List Permission)
    (gu : String → List Member) : List Role → List Event × Bool
  | [] => ([], false)
  | r :: rest =>
    let pr := processRoleLive wo gp gu r
    if pr.2 then (pr.1, true)
    else
      let rr := rolesLive wo gp gu rest
      (pr.1 ++ rr.1, rr.2)

/-- `process_roles` (lines 490–508): dry run fetches each role's permissions
and logs counts; live mode creates and associates.  No `return` statement,
hence the Python return value `None`. -/
def process_roles_run (wo : WriteOracle) (gp : String → List Permission)
    (gu : String → List Member) (auth0_roles : List Role) (dry_run : Bool) :
    (List Event × Bool) × PyVal :=
  if dry_run then
    ((auth0_roles.map fun r => Event.readPermissions r.id, false), PyVal.none)
  else (rolesLive wo gp gu auth0_roles, PyVal.none)

/-- The member loop of `process_auth0_organizations` live mode (lines
526–527): `add_descope_user_to_tenant(organization["id"], user["email"])`. -/
def addTenantMembers (wo : WriteOracle) (tenantId : String) :
    List Member → List Event × Bool
  | [] => ([], false)
  | m :: rest =>
    let ev := Event.addUserToTenant tenantId m.email
    match wo ev with
    | Option.none => ([ev], true)
    | Option.some _ =>
      let r := addTenantMembers wo tenantId rest
      (ev :: r.1, r.2)

/-- One iteration of `process_auth0_organizations`'s live loop (lines
523–527): create the tenant, fetch the organization's members, associate
each member. -/
def processOrgLive (wo : WriteOracle) (gm : String → List Member)
    (organization : Org) : List Event × Bool :=
  let tev := Event.createTenant organization.display_name organization.id
  match wo tev with
  | Option.none => ([tev], true)
  | Option.some _ =>
    let ar := addTenantMembers wo organization.id (gm organization.id)
    (tev :: Event.readOrgMembers organization.id :: ar.1, ar.2)

/-- The organization loop of `process_auth0_organizations` live mode. -/
def orgsLive (wo : WriteOracle) (gm : String → List Member) :
    List Org → List Event × Bool
  | [] => ([], false)
  | o :: rest =>
    let pr := processOrgLive wo gm o
    if pr.2 then (pr.1, true)
    else
      let rr := orgsLive wo gm rest
      (pr.1 ++ rr.1, rr.2)

/-- `process_auth0_organizations` (lines 510–527): dry run fetches each
organization's members and logs counts; live mode creates tenants and
associates members.  No `return` statement, hence `None`. -/
def process_auth0_organizations_run (wo : WriteOracle) (gm : String → List Member)
    (auth0_organizations : List Org) (dry_run : Bool) :
    (List Event × Bool) × PyVal :=
  if dry_run then
    ((auth0_organizations.map fun o => Event.readOrgMembers o.id, false), PyVal.none)
  else (orgsLive wo gm auth0_organizations, PyVal.none)

/-- `main` (main.py, lines 6–89), after the fetches (modelled as the given
lists): `failed_users, successful_migrated_users, merged_users,
disabled_users_mismatch = process_users(auth0_users, dry_run)` unpacks the
process function's return value into 4 names, then `process_roles` into 6,
then `process_auth0_organizations` into 4.  The result is the events
performed and the message of the exception that ended the run, if any. -/
def mainRun (wo : WriteOracle) (gp : String → List Permission)
    (gu : String → List Member) (gm : String → List Member)
    (auth0_users : List Auth0User) (auth0_roles : List Role)
    (auth0_organizations : List Org) (dry_run : Bool) :
    List Event × Option String :=
  let ur := process_users_run wo auth0_users dry_run
  match pyUnpackN 4 ur.2 with
  | Except.error e => (ur.1, Option.some e)
  | Except.ok _ =>
    let rr := process_roles_run wo gp gu auth0_roles dry_run
    if rr.1.2 then
      (ur.1 ++ rr.1.1,
        Option.some "AttributeError: NoneType object has no attribute status_code")
    else
      match pyUnpackN 6 rr.2 with
      | Except.error e => (ur.1 ++ rr.1.1, Option.some e)
      | Except.ok _ =>
        let orr := process_auth0_organizations_run wo gm auth0_organizations dry_run
        if orr.1.2 then
          (ur.1 ++ rr.1.1 ++ orr.1.1,
            Option.some "AttributeError: NoneType object has no attribute status_code")
        else
          match pyUnpackN 4 orr.2 with
          | Except.error e => (ur.1 ++ rr.1.1 ++ orr.1.1, Option.some e)
          | Except.ok _ => (ur.1 ++ rr.1.1 ++ orr.1.1, Option.none)

/-- The canonicalization rule exactly as the spec words it (§4.3, first match
wins), formalised independently of the code: "contains the substring" is
`List.IsInfix` on the strings' characters, and rule 3's "prefix before first
hyphen" is the head of the full hyphen split.  The spec denotes the
username/password-database substring and the SMS method by the source's
literals `"Username"` and `"sms"`. -/
def specCanonicalLoginId (user : Auth0User) (ident : Identity) : Option String :=
  if "Username".data <:+: ident.connection.data then user.email
  else if "sms".data <:+: ident.connection.data then user.phone_number
  else if "-".data <:+: ident.connection.data then
    Option.some (⟨(splitOnDash ident.connection.data).headD []⟩ ++ "-" ++ ident.user_id)
  else Option.some (ident.connection ++ "-" ++ ident.user_id)

/-- Event classifiers used by the theorems. -/
def isCreateUserEv : Event → Bool
  | Event.createUser _ => true
  | _ => false

def isUpdateStatusEv : Event → Bool
  | Event.updateStatus _ _ => true
  | _ => false

def isAddRoleEv : Event → Bool
  | Event.addUserToRole _ _ => true
  | _ => false

def isAddTenantEv : Event → Bool
  | Event.addUserToTenant _ _ => true
  | _ => false

/-- The role name a role-membership write targets, if the event is one. -/
def addRoleKey : Event → Option String
  | Event.addUserToRole _ roleName => Option.some roleName
  | _ => Option.none

/-- The name a role-create write creates, if the event is one. -/
def createRoleKey : Event → Option String
  | Event.createRole name _ _ => Option.some name
  | _ => Option.none

/-- The tenant id a tenant-membership write targets, if the event is one. -/
def addTenantKey : Event → Option String
  | Event.addUserToTenant tenantId _ => Option.some tenantId
  | _ => Option.none

/-- The id a tenant-create write creates, if the event is one. -/
def createTenantKey : Event → Option String
  | Event.createTenant _ id => Option.some id
  | _ => Option.none

/-- Ordering discipline on a trace: every event carrying a `later` key is
preceded (strictly) by an event carrying the same `earlier` key.  With the
role (resp. tenant) keys this says "no membership write before its parent
resource's create write". -/
def keyedBefore (later earlier : Event → Option String) (t : List Event) : Prop :=
  ∀ (j : Nat) (e : Event) (k : String), t[j]? = Option.some e → later e = Option.some k →
    ∃ i : Nat, i < j ∧ ∃ e' : Event, t[i]? = Option.some e' ∧ earlier e' = Option.some k

/-- "No `addUserToRole` for a role before that role's create write." -/
abbrev roleOrderOK (t : List Event) : Prop := keyedBefore addRoleKey createRoleKey t

/-- "No `addUserToTenant` for a tenant before that tenant's create write." -/
abbrev tenantOrderOK (t : List Event) : Prop := keyedBefore addTenantKey createTenantKey t

/-- Within a trace, every permission-create write precedes every
role-membership write.  Used per role-processing block. -/
def permBeforeAddOK (t : List Event) : Prop :=
  ∀ (i j : Nat) (a b u rn : String),
    t[i]? = Option.some (Event.createPermission a b) →
    t[j]? = Option.some (Event.addUserToRole u rn) → i < j

/-- Expected pagination output: the bodies of `n` consecutive pages starting
at `page`, concatenated in order. -/
def pagesConcat (items : Nat → List PyVal) : Nat → Nat → List PyVal
  | _, 0 => []
  | page, n + 1 => items page ++ pagesConcat items (page + 1) n

/-- A write oracle answering HTTP 200 to everything. -/
def woAll200 : WriteOracle := fun _ => Option.some 200

/-- A write oracle answering HTTP 201 to everything: a 2xx success code that
is nevertheless not 200. -/
def woAll201 : WriteOracle := fun _ => Option.some 201

/-- A page oracle on which the retry layer always gives up: every page's
`api_request_with_retry` returns the `None` sentinel. -/
def prAllNone : Nat → Option Response := fun _ => Option.none

/-- A page oracle with two non-empty 200 pages and a 500 on page 2. -/
def prTwoPages : Nat → Option Response := fun page =>
  if page = 0 then Option.some { status := 200, body := [PyVal.str "u1"] }
  else if page = 1 then Option.some { status := 200, body := [PyVal.str "u2"] }
  else Option.some { status := 500, body := [] }

/-- The page bodies of `prTwoPages`. -/
def itemsTwoPages : Nat → List PyVal := fun page =>
  if page = 0 then [PyVal.str "u1"]
  else if page = 1 then [PyVal.str "u2"]
  else []

/-- An attempt oracle that rate-limits the first three requests and then
answers 200. -/
def oracleC6 : Nat → AttemptOutcome := fun i =>
  if i < 3 then AttemptOutcome.resp { status := 429, body := [] }
  else AttemptOutcome.resp { status := 200, body := [] }

/-- A source user with two identities whose connections both contain
`"Username"`, so both resolve to the same loginId (the user's email). -/
def userC2 : Auth0User :=
  { email := Option.some "a@x.com"
    email_verified := true
    phone_number := Option.none
    phone_verified := false
    name := Option.some "Ann"
    picture := Option.none
    blocked := false
    identities :=
      [{ connection := "Username-Password-Authentication", provider := "auth0", user_id := "abc" },
       { connection := "Username-Legacy", provider := "auth0", user_id := "abc" }] }

/-- A source user with a single username/password identity. -/
def userC7 : Auth0User :=
  { email := Option.some "b@y.com"
    email_verified := true
    phone_number := Option.none
    phone_verified := false
    name := Option.some "Bob"
    picture := Option.none
    blocked := false
    identities :=
      [{ connection := "Username-Password-Authentication", provider := "auth0", user_id := "u1" }] }

/-- A source user whose only identity is an SMS one: their resolved loginId
is the phone number, not the email. -/
def smsUser : Auth0User :=
  { email := Option.some "s@x.com"
    email_verified := true
    phone_number := Option.some "+15551234567"
    phone_verified := true
    name := Option.some "Sam"
    picture := Option.none
    blocked := false
    identities := [{ connection := "sms", provider := "sms", user_id := "+15551234567" }] }

/-- `smsUser`'s identity. -/
def smsIdent : Identity :=
  { connection := "sms", provider := "sms", user_id := "+15551234567" }

end AuthMig
namespace AuthMig

theorem listHas_iff (sub : List Char) : ∀ l : List Char, listHas sub l = true ↔ sub <:+: l
  | [] => by simp [listHas]
  | c :: t => by
    simp [listHas, List.infix_cons_iff, listHas_iff sub t]

theorem splitOnDash_ne_nil : ∀ l : List Char, splitOnDash l ≠ []
  | [] => by simp [splitOnDash]
  | c :: t => by
    unfold splitOnDash
    split
    · simp
    · match h : splitOnDash t with
      | [] => simp
      | h' :: r => simp

theorem takeUntilDash_eq : ∀ l : List Char, takeUntilDash l = (splitOnDash l).headD []
  | [] => rfl
  | c :: t => by
    unfold takeUntilDash splitOnDash
    split
    · simp
    · match h : splitOnDash t with
      | [] => exact absurd h (splitOnDash_ne_nil t)
      | h' :: r =>
        simp [takeUntilDash_eq t, h]

theorem pyIn_iff (sub s : String) : pyIn sub s = true ↔ sub.data <:+: s.data :=
  listHas_iff sub.data s.data

theorem splitDashHead_eq (s : String) :
    splitDashHead s = ⟨(splitOnDash s.data).headD []⟩ := by
  unfold splitDashHead
  rw [takeUntilDash_eq]

/-- C4: the derived loginId follows the spec's four-rule cascade, first match
wins: a connection containing the username/password-database substring yields
the user's email; else an SMS connection yields the phone number; else a
hyphenated connection yields its prefix before the first hyphen, a hyphen and
the identity's user_id; else the full connection, a hyphen and the user_id.
Proved as: the code-side derivation equals the independently formalised
spec-side rule. -/
theorem C4_loginId_rules (user : Auth0User) (ident : Identity) :
    derive_loginId user ident = specCanonicalLoginId user ident := by
  unfold derive_loginId specCanonicalLoginId
  rw [splitDashHead_eq]
  by_cases h1 : "Username".data <:+: ident.connection.data
  · rw [if_pos ((pyIn_iff _ _).2 h1), if_pos h1]
  · rw [if_neg (fun hb => h1 ((pyIn_iff _ _).1 hb)), if_neg h1]
    by_cases h2 : "sms".data <:+: ident.connection.data
    · rw [if_pos ((pyIn_iff _ _).2 h2), if_pos h2]
    · rw [if_neg (fun hb => h2 ((pyIn_iff _ _).1 hb)), if_neg h2]
      by_cases h3 : "-".data <:+: ident.connection.data
      · rw [if_pos ((pyIn_iff _ _).2 h3), if_pos h3]
      · rw [if_neg (fun hb => h3 ((pyIn_iff _ _).1 hb)), if_neg h3]

end AuthMig
namespace AuthMig

theorem retryLoop_step_resp (o : Nat → AttemptOutcome) (fuel k : Nat) (w : List Nat)
    (r : Response) (ho : o k = AttemptOutcome.resp r) :
    retryLoop o (fuel + 1) k w =
      if r.status = 429 then retryLoop o fuel (k + 1) (w ++ [5 ^ (k + 1)])
      else { result := Option.some r, waits := w, attempts := k + 1 } := by
  conv_lhs => unfold retryLoop
  rw [ho]

theorem retryLoop_step_timeout (o : Nat → AttemptOutcome) (fuel k : Nat) (w : List Nat)
    (ho : o k = AttemptOutcome.readTimeout) :
    retryLoop o (fuel + 1) k w = retryLoop o fuel (k + 1) (w ++ [5 ^ (k + 1)]) := by
  conv_lhs => unfold retryLoop
  rw [ho]

theorem retryLoop_step_other (o : Nat → AttemptOutcome) (fuel k : Nat) (w : List Nat)
    (ho : o k = AttemptOutcome.otherException) :
    retryLoop o (fuel + 1) k w =
      { result := Option.none, waits := w, attempts := k + 1 } := by
  conv_lhs => unfold retryLoop
  rw [ho]

theorem retryLoop_attempts_le (o : Nat → AttemptOutcome) :
    ∀ (fuel retries : Nat) (waits : List Nat),
      (retryLoop o fuel retries waits).attempts ≤ retries + fuel
  | 0, retries, waits => by simp [retryLoop]
  | fuel + 1, retries, waits => by
    have IH := retryLoop_attempts_le o fuel (retries + 1) (waits ++ [5 ^ (retries + 1)])
    cases ho : o retries with
    | resp r =>
      rw [retryLoop_step_resp o fuel retries waits r ho]
      by_cases h : r.status = 429
      · rw [if_pos h]; omega
      · rw [if_neg h]; simp only; omega
    | readTimeout =>
      rw [retryLoop_step_timeout o fuel retries waits ho]; omega
    | otherException =>
      rw [retryLoop_step_other o fuel retries waits ho]; simp only; omega

theorem retryLoop_exhaust (o : Nat → AttemptOutcome) :
    ∀ (fuel retries : Nat) (waits : List Nat),
      (∀ i, retries ≤ i → i < retries + fuel →
        (∃ r, o i = AttemptOutcome.resp r ∧ r.status = 429) ∨ o i = AttemptOutcome.readTimeout) →
      (retryLoop o fuel retries waits).result = Option.none
  | 0, retries, waits, _ => by simp [retryLoop]
  | fuel + 1, retries, waits, h => by
    rcases h retries le_rfl (by omega) with ⟨r, hr, hs⟩ | ht
    · rw [retryLoop_step_resp o fuel retries waits r hr, if_pos hs]
      exact retryLoop_exhaust o fuel (retries + 1) _
        (fun i hi hi2 => h i (by omega) (by omega))
    · rw [retryLoop_step_timeout o fuel retries waits ht]
      exact retryLoop_exhaust o fuel (retries + 1) _
        (fun i hi hi2 => h i (by omega) (by omega))

/-- C6: a 429 response or read timeout triggers a retry after waiting
5^attempt seconds (attempt starting at 1), at most 4 attempts in total; three
rate limits then a success wait 5, 25, 125 seconds and return the attempt-4
response; exhausting all attempts returns the None sentinel, never a
partially-constructed response. -/
theorem C6_retry_backoff (oracle : Nat → AttemptOutcome) (r1 r2 r3 r4 : Response)
    (h0 : oracle 0 = AttemptOutcome.resp r1) (h1 : oracle 1 = AttemptOutcome.resp r2)
    (h2 : oracle 2 = AttemptOutcome.resp r3) (h3 : oracle 3 = AttemptOutcome.resp r4)
    (s1 : r1.status = 429) (s2 : r2.status = 429) (s3 : r3.status = 429)
    (s4 : r4.status ≠ 429) :
    api_request_with_retry oracle 4 =
      { result := Option.some r4, waits := [5, 25, 125], attempts := 4 } ∧
    (∀ o : Nat → AttemptOutcome,
      (∀ i, i < 4 →
        (∃ r, o i = AttemptOutcome.resp r ∧ r.status = 429) ∨ o i = AttemptOutcome.readTimeout) →
      (api_request_with_retry o 4).result = Option.none) ∧
    (∀ o : Nat → AttemptOutcome, (api_request_with_retry o 4).attempts ≤ 4) := by
  refine ⟨?_, ?_, ?_⟩
  · show retryLoop oracle (3 + 1) 0 [] = _
    rw [retryLoop_step_resp oracle 3 0 [] r1 h0, if_pos s1]
    rw [retryLoop_step_resp oracle 2 1 _ r2 h1, if_pos s2]
    rw [retryLoop_step_resp oracle 1 2 _ r3 h2, if_pos s3]
    rw [retryLoop_step_resp oracle 0 3 _ r4 h3, if_neg s4]
    norm_num
  · intro o ho
    exact retryLoop_exhaust o 4 0 [] (fun i hi hi2 => ho i (by omega))
  · intro o
    exact retryLoop_attempts_le o 4 0 []

/-- C6 witness: the backoff theorem at a concrete oracle rate-limiting
attempts 1-3 and answering 200 on attempt 4. -/
theorem C6_witness :
    api_request_with_retry oracleC6 4 =
      { result := Option.some { status := 200, body := [] }, waits := [5, 25, 125], attempts := 4 } ∧
    (∀ o : Nat → AttemptOutcome,
      (∀ i, i < 4 →
        (∃ r, o i = AttemptOutcome.resp r ∧ r.status = 429) ∨ o i = AttemptOutcome.readTimeout) →
      (api_request_with_retry o 4).result = Option.none) ∧
    (∀ o : Nat → AttemptOutcome, (api_request_with_retry o 4).attempts ≤ 4) :=
  C6_retry_backoff oracleC6 { status := 429, body := [] } { status := 429, body := [] }
    { status := 429, body := [] } { status := 200, body := [] }
    rfl rfl rfl rfl rfl rfl rfl (by norm_num)

end AuthMig
namespace AuthMig

theorem fetchLoop_fail (pr : Nat → Option Response) (items : Nat → List PyVal) :
    ∀ (n fuel page : Nat) (acc : List PyVal) (rEnd : Response),
      n < fuel →
      (∀ p, page ≤ p → p < page + n →
        pr p = Option.some { status := 200, body := items p } ∧ (items p).isEmpty = false) →
      pr (page + n) = Option.some rEnd → rEnd.status ≠ 200 →
      fetchLoop pr fuel page acc = Option.some (Except.ok (acc ++ pagesConcat items page n)) := by
  intro n
  induction n with
  | zero =>
    intro fuel page acc rEnd hf hgood hEnd hs
    cases fuel with
    | zero => omega
    | succ f =>
      unfold fetchLoop
      rw [Nat.add_zero] at hEnd
      rw [hEnd]
      simp [hs, pagesConcat]
  | succ n IH =>
    intro fuel page acc rEnd hf hgood hEnd hs
    cases fuel with
    | zero => omega
    | succ f =>
      unfold fetchLoop
      have hp := hgood page le_rfl (by omega)
      rw [hp.1]
      dsimp only
      rw [if_neg (by simp)]
      rw [if_neg (by simp [hp.2])]
      rw [IH f (page + 1) (acc ++ items page) rEnd (by omega)
        (fun p h1 h2 => hgood p (by omega) (by omega))
        (by rw [show page + 1 + n = page + (n + 1) from by omega]; exact hEnd) hs]
      simp [pagesConcat]

theorem fetchLoop_sentinel (pr : Nat → Option Response) (items : Nat → List PyVal) :
    ∀ (n fuel page : Nat) (acc : List PyVal),
      n < fuel →
      (∀ p, page ≤ p → p < page + n →
        pr p = Option.some { status := 200, body := items p } ∧ (items p).isEmpty = false) →
      pr (page + n) = Option.none →
      fetchLoop pr fuel page acc =
        Option.some (Except.error
          "AttributeError: NoneType object has no attribute status_code") := by
  intro n
  induction n with
  | zero =>
    intro fuel page acc hf hgood hEnd
    cases fuel with
    | zero => omega
    | succ f =>
      unfold fetchLoop
      rw [Nat.add_zero] at hEnd
      rw [hEnd]
  | succ n IH =>
    intro fuel page acc hf hgood hEnd
    cases fuel with
    | zero => omega
    | succ f =>
      unfold fetchLoop
      have hp := hgood page le_rfl (by omega)
      rw [hp.1]
      dsimp only
      rw [if_neg (by simp)]
      rw [if_neg (by simp [hp.2])]
      exact IH f (page + 1) (acc ++ items page) (by omega)
        (fun p h1 h2 => hgood p (by omega) (by omega))
        (by rw [show page + 1 + n = page + (n + 1) from by omega]; exact hEnd)

end AuthMig
namespace AuthMig

/-- C3 (amended): for each of the six paginated fetchers, a page answering a
non-200 status makes the fetcher return exactly the items accumulated from
the earlier pages, without raising; but when the retry layer hands back its
None failure sentinel, the status_code dereference raises AttributeError to
the caller instead of returning the accumulated items. -/
theorem C3_page_failure_truncates (pr : Nat → Option Response) (items : Nat → List PyVal)
    (role organization : String) (k fuel : Nat) (rEnd : Response)
    (hgood : ∀ p, p < k →
      pr p = Option.some { status := 200, body := items p } ∧ (items p).isEmpty = false)
    (hEnd : pr k = Option.some rEnd) (hs : rEnd.status ≠ 200) (hfuel : k < fuel) :
    fetch_auth0_users pr fuel = Option.some (Except.ok (pagesConcat items 0 k)) ∧
    fetch_auth0_roles pr fuel = Option.some (Except.ok (pagesConcat items 0 k)) ∧
    get_users_in_role role pr fuel = Option.some (Except.ok (pagesConcat items 0 k)) ∧
    get_permissions_for_role role pr fuel = Option.some (Except.ok (pagesConcat items 0 k)) ∧
    fetch_auth0_organizations pr fuel = Option.some (Except.ok (pagesConcat items 0 k)) ∧
    fetch_auth0_organization_members organization pr fuel =
      Option.some (Except.ok (pagesConcat items 0 k)) ∧
    (∀ (pr2 : Nat → Option Response) (items2 : Nat → List PyVal) (k2 fuel2 : Nat),
      (∀ p, p < k2 →
        pr2 p = Option.some { status := 200, body := items2 p } ∧ (items2 p).isEmpty = false) →
      pr2 k2 = Option.none → k2 < fuel2 →
      fetch_auth0_users pr2 fuel2 =
        Option.some (Except.error
          "AttributeError: NoneType object has no attribute status_code")) := by
  have core : fetchLoop pr fuel 0 [] = Option.some (Except.ok (pagesConcat items 0 k)) := by
    have h := fetchLoop_fail pr items k fuel 0 [] rEnd hfuel
      (fun p h1 h2 => hgood p (by omega))
      (by rw [Nat.zero_add]; exact hEnd) hs
    simpa using h
  refine ⟨core, core, core, core, core, core, ?_⟩
  intro pr2 items2 k2 fuel2 hgood2 hEnd2 hfuel2
  exact fetchLoop_sentinel pr2 items2 k2 fuel2 0 [] hfuel2
    (fun p h1 h2 => hgood2 p (by omega))
    (by rw [Nat.zero_add]; exact hEnd2)

/-- C3 counterexample: on an oracle whose page-0 request exhausts retries
(the retry layer returns None), `fetch_auth0_users` propagates an
AttributeError rather than returning the accumulated empty list, refuting
"never raises an exception to its caller" for the Failure-sentinel case. -/
theorem C3_sentinel_raises :
    fetch_auth0_users prAllNone 1 =
      Option.some (Except.error
        "AttributeError: NoneType object has no attribute status_code") ∧
    Option.some (Except.error
        "AttributeError: NoneType object has no attribute status_code"
        : Except String (List PyVal)) ≠
      Option.some (Except.ok []) := by
  exact ⟨rfl, by simp⟩

/-- C3 witness: the amended theorem instantiated at a concrete oracle with
two non-empty 200 pages followed by a 500 page. -/
theorem C3_witness :
    fetch_auth0_users prTwoPages 3 = Option.some (Except.ok (pagesConcat itemsTwoPages 0 2)) ∧
    fetch_auth0_roles prTwoPages 3 = Option.some (Except.ok (pagesConcat itemsTwoPages 0 2)) ∧
    get_users_in_role "r1" prTwoPages 3 = Option.some (Except.ok (pagesConcat itemsTwoPages 0 2)) ∧
    get_permissions_for_role "r1" prTwoPages 3 =
      Option.some (Except.ok (pagesConcat itemsTwoPages 0 2)) ∧
    fetch_auth0_organizations prTwoPages 3 =
      Option.some (Except.ok (pagesConcat itemsTwoPages 0 2)) ∧
    fetch_auth0_organization_members "o1" prTwoPages 3 =
      Option.some (Except.ok (pagesConcat itemsTwoPages 0 2)) ∧
    (∀ (pr2 : Nat → Option Response) (items2 : Nat → List PyVal) (k2 fuel2 : Nat),
      (∀ p, p < k2 →
        pr2 p = Option.some { status := 200, body := items2 p } ∧ (items2 p).isEmpty = false) →
      pr2 k2 = Option.none → k2 < fuel2 →
      fetch_auth0_users pr2 fuel2 =
        Option.some (Except.error
          "AttributeError: NoneType object has no attribute status_code")) :=
  C3_page_failure_truncates prTwoPages itemsTwoPages "r1" "o1" 2 3 { status := 500, body := [] }
    (by
      intro p hp
      interval_cases p
      · exact ⟨rfl, rfl⟩
      · exact ⟨rfl, rfl⟩)
    rfl (by norm_num) (by norm_num)

end AuthMig
namespace AuthMig

/-- C1 (code bug): every run, live or dry, raises
`TypeError: cannot unpack non-iterable NoneType object` at main.py line 20 —
`process_users` ends without a return statement, yet `main` unpacks its
result into four names — so the run never reaches the Roles or Organizations
domains and never returns a report: the trace is exactly the user-domain
trace. -/
theorem C1_run_always_raises (wo : WriteOracle) (gp : String → List Permission)
    (gu gm : String → List Member) (users : List Auth0User) (roles : List Role)
    (orgs : List Org) (dry_run : Bool) :
    (mainRun wo gp gu gm users roles orgs dry_run).2 =
      Option.some "TypeError: cannot unpack non-iterable NoneType object" ∧
    (mainRun wo gp gu gm users roles orgs dry_run).1 =
      (process_users_run wo users dry_run).1 := by
  cases dry_run <;> exact ⟨rfl, rfl⟩

/-- C2 (code bug): a source user with two identities that resolve to the
same loginId produces two user-create writes (one per identity), not one
merged write, and `process_users` returns None, recording no merge. -/
theorem C2_same_loginId_two_writes_no_merge :
    (create_descope_user woAll200 userC2).countP isCreateUserEv = 2 ∧
    derive_loginId userC2
      { connection := "Username-Password-Authentication", provider := "auth0", user_id := "abc" } =
      Option.some "a@x.com" ∧
    derive_loginId userC2
      { connection := "Username-Legacy", provider := "auth0", user_id := "abc" } =
      Option.some "a@x.com" ∧
    (process_users_run woAll200 [userC2] false).2 = PyVal.none :=
  ⟨rfl, rfl, rfl, rfl⟩

/-- C5: a dry run issues zero write calls in all three domains while still
performing the nested reads — permissions per role and members per
organization — needed for the counts: the dry traces are exactly those read
events and contain no write event. -/
theorem C5_dry_run_reads_no_writes (wo : WriteOracle) (gp : String → List Permission)
    (gu gm : String → List Member) (users : List Auth0User) (roles : List Role)
    (orgs : List Org) :
    (process_users_run wo users true).1 = [] ∧
    (process_roles_run wo gp gu roles true).1.1 =
      roles.map (fun r => Event.readPermissions r.id) ∧
    (process_auth0_organizations_run wo gm orgs true).1.1 =
      orgs.map (fun o => Event.readOrgMembers o.id) ∧
    ((process_roles_run wo gp gu roles true).1.1.all fun e => !isWriteEvent e) = true ∧
    ((process_auth0_organizations_run wo gm orgs true).1.1.all fun e => !isWriteEvent e) = true ∧
    ((mainRun wo gp gu gm users roles orgs true).1.all fun e => !isWriteEvent e) = true := by
  refine ⟨rfl, rfl, rfl, ?_, ?_, rfl⟩
  · simp [process_roles_run, List.all_eq_true]
    intro r _
    rfl
  · simp [process_auth0_organizations_run, List.all_eq_true]
    intro o _
    rfl

/-- C7 (amended): for every target-user draft written in live mode, the
status-update call is issued if and only if the user upsert returned exactly
HTTP 200; on any other returned status no status update is attempted and the
user-failed warning is recorded, and on the retry layer's None sentinel the
exception aborts the user's identity loop before any status update. -/
theorem C7_status_iff_exactly_200 (wo : WriteOracle) (user : Auth0User) (ident : Identity) :
    ((processIdentity wo user ident).1 =
        [Event.createUser (mkPayload user ident),
         Event.updateStatus (mkPayload user ident).loginId (userStatus user)] ↔
      wo (Event.createUser (mkPayload user ident)) = Option.some 200) ∧
    (∀ c, wo (Event.createUser (mkPayload user ident)) = Option.some c → c ≠ 200 →
      (processIdentity wo user ident).1 =
        [Event.createUser (mkPayload user ident), Event.warnFailedUser user]) ∧
    (wo (Event.createUser (mkPayload user ident)) = Option.none →
      (processIdentity wo user ident).1 = [Event.createUser (mkPayload user ident)] ∧
      (processIdentity wo user ident).2 = true) := by
  cases hwo : wo (Event.createUser (mkPayload user ident)) with
  | none =>
    refine ⟨by simp [processIdentity, hwo], ?_, by simp [processIdentity, hwo]⟩
    intro c hc
    exact absurd hc (by simp)
  | some c =>
    by_cases hc : c = 200
    · subst hc
      have htr : (processIdentity wo user ident).1 =
          [Event.createUser (mkPayload user ident),
           Event.updateStatus (mkPayload user ident).loginId (userStatus user)] := by
        cases hst : wo (Event.updateStatus (mkPayload user ident).loginId (userStatus user)) <;>
          simp [processIdentity, hwo, hst]
      refine ⟨by simp [htr, hwo], ?_, ?_⟩
      · intro c' hc' hne
        exact absurd (Option.some.inj hc').symm hne
      · intro h
        exact Option.noConfusion h
    · refine ⟨?_, ?_, ?_⟩
      · simp [processIdentity, hwo, hc]
      · intro c' hc' hne
        obtain rfl := Option.some.inj hc'
        simp [processIdentity, hwo, hc]
      · intro h
        exact Option.noConfusion h

/-- C7 counterexample: an upsert answering HTTP 201 — a 2xx success — is
treated as failure: the trace records the failure warning and contains no
status-update event, refuting the claim's "if and only if ... returned
2xx". -/
theorem C7_201_skips_status_update :
    create_descope_user woAll201 userC7 =
      [Event.createUser (mkPayload userC7
        { connection := "Username-Password-Authentication", provider := "auth0", user_id := "u1" }),
       Event.warnFailedUser userC7] ∧
    (200 ≤ 201 ∧ 201 < 300) ∧
    (create_descope_user woAll201 userC7).countP isUpdateStatusEv = 0 :=
  ⟨rfl, by norm_num, rfl⟩

end AuthMig
namespace AuthMig

theorem keyedBefore_append (later earlier : Event → Option String) {t₁ t₂ : List Event}
    (h₁ : keyedBefore later earlier t₁) (h₂ : keyedBefore later earlier t₂) :
    keyedBefore later earlier (t₁ ++ t₂) := by
  intro j e k hj hk
  by_cases hlt : j < t₁.length
  · rw [List.getElem?_append_left hlt] at hj
    obtain ⟨i, hij, e', hi, he'⟩ := h₁ j e k hj hk
    have hil : i < t₁.length := by omega
    exact ⟨i, hij, e', by rw [List.getElem?_append_left hil]; exact hi, he'⟩
  · push_neg at hlt
    rw [List.getElem?_append_right hlt] at hj
    obtain ⟨i, hij, e', hi, he'⟩ := h₂ (j - t₁.length) e k hj hk
    refine ⟨t₁.length + i, by omega, e', ?_, he'⟩
    rw [List.getElem?_append_right (by omega)]
    rw [show t₁.length + i - t₁.length = i from by omega]
    exact hi

theorem keyedBefore_of_no_later (later earlier : Event → Option String) {t : List Event}
    (h : ∀ e ∈ t, later e = Option.none) : keyedBefore later earlier t := by
  intro j e k hj hk
  rw [h e (List.mem_iff_getElem?.2 ⟨j, hj⟩)] at hk
  cases hk

theorem keyedBefore_block (later earlier : Event → Option String) (l₁ l₂ : List Event)
    (k : String)
    (hE : ∃ e : Event, e ∈ l₁ ∧ earlier e = Option.some k)
    (hN : ∀ e ∈ l₁, later e = Option.none)
    (hK : ∀ e ∈ l₂, ∀ k', later e = Option.some k' → k' = k) :
    keyedBefore later earlier (l₁ ++ l₂) := by
  intro j e k' hj hk'
  by_cases hlt : j < l₁.length
  · rw [List.getElem?_append_left hlt] at hj
    rw [hN e (List.mem_iff_getElem?.2 ⟨j, hj⟩)] at hk'
    cases hk'
  · push_neg at hlt
    rw [List.getElem?_append_right hlt] at hj
    obtain rfl : k' = k := hK e (List.mem_iff_getElem?.2 ⟨_, hj⟩) k' hk'
    obtain ⟨e', he'mem, he'⟩ := hE
    obtain ⟨i, hi⟩ := List.mem_iff_getElem?.1 he'mem
    have hil : i < l₁.length := (List.getElem?_eq_some_iff.1 hi).1
    exact ⟨i, by omega, e', by rw [List.getElem?_append_left hil]; exact hi, he'⟩

theorem zones_lt {l₁ l₂ : List Event} (P Q : Event → Prop)
    (hQ : ∀ e ∈ l₂, ¬ Q e) (hP : ∀ e ∈ l₁, ¬ P e) :
    ∀ (i j : Nat) (ei ej : Event), (l₁ ++ l₂)[i]? = Option.some ei → Q ei →
      (l₁ ++ l₂)[j]? = Option.some ej → P ej → i < j := by
  intro i j ei ej hi hQi hj hPj
  have hiL : i < l₁.length := by
    by_contra h
    push_neg at h
    rw [List.getElem?_append_right h] at hi
    exact hQ ei (List.mem_iff_getElem?.2 ⟨_, hi⟩) hQi
  have hjL : l₁.length ≤ j := by
    by_contra h
    push_neg at h
    rw [List.getElem?_append_left h] at hj
    exact hP ej (List.mem_iff_getElem?.2 ⟨j, hj⟩) hPj
  omega

theorem createPermsEvents_mem (wo : WriteOracle) :
    ∀ (ps : List Permission) (e : Event), e ∈ (createPermsEvents wo ps).1 →
      ∃ a b, e = Event.createPermission a b
  | [], e, h => absurd h (by simp [createPermsEvents])
  | p :: rest, e, h => by
    simp only [createPermsEvents] at h
    cases hwo : wo (Event.createPermission p.permission_name p.description) with
    | none =>
      rw [hwo] at h
      simp at h
      exact ⟨_, _, h⟩
    | some c =>
      rw [hwo] at h
      simp at h
      rcases h with rfl | h
      · exact ⟨_, _, rfl⟩
      · exact createPermsEvents_mem wo rest e h

theorem createPermsEvents_no_abort (wo : WriteOracle) :
    ∀ ps : List Permission, (createPermsEvents wo ps).2 = false →
      (createPermsEvents wo ps).1 =
        ps.map (fun p => Event.createPermission p.permission_name p.description)
  | [], _ => rfl
  | p :: rest, h => by
    simp only [createPermsEvents] at h ⊢
    cases hwo : wo (Event.createPermission p.permission_name p.description) with
    | none =>
      rw [hwo] at h
      simp at h
    | some c =>
      rw [hwo] at h
      dsimp only at h ⊢
      simp only [List.map_cons, List.cons.injEq, true_and]
      exact createPermsEvents_no_abort wo rest h

theorem crp_trace (wo : WriteOracle) (role : Role) (ps : List Permission) :
    (create_descope_role_and_permissions wo role ps).1 = (createPermsEvents wo ps).1 ∨
    (create_descope_role_and_permissions wo role ps).1 = (createPermsEvents wo ps).1 ++
      [Event.createRole role.name role.description (ps.map (·.permission_name))] := by
  simp only [create_descope_role_and_permissions]
  by_cases h : (createPermsEvents wo ps).2
  · rw [if_pos h]
    exact Or.inl rfl
  · rw [if_neg h]
    cases hwo : wo (Event.createRole role.name role.description (ps.map (·.permission_name))) <;>
      exact Or.inr rfl

theorem crp_mem (wo : WriteOracle) (role : Role) (ps : List Permission) :
    ∀ e ∈ (create_descope_role_and_permissions wo role ps).1,
      (∃ a b, e = Event.createPermission a b) ∨
      e = Event.createRole role.name role.description (ps.map (·.permission_name)) := by
  intro e he
  rcases crp_trace wo role ps with h | h
  · rw [h] at he
    exact Or.inl (createPermsEvents_mem wo ps e he)
  · rw [h] at he
    rcases List.mem_append.1 he with h' | h'
    · exact Or.inl (createPermsEvents_mem wo ps e h')
    · simp at h'
      exact Or.inr h'

theorem crp_no_abort (wo : WriteOracle) (role : Role) (ps : List Permission)
    (h : (create_descope_role_and_permissions wo role ps).2 = false) :
    (create_descope_role_and_permissions wo role ps).1 =
      ps.map (fun p => Event.createPermission p.permission_name p.description) ++
      [Event.createRole role.name role.description (ps.map (·.permission_name))] ∧
    (createPermsEvents wo ps).2 = false := by
  simp only [create_descope_role_and_permissions] at h ⊢
  by_cases hp : (createPermsEvents wo ps).2
  · rw [if_pos hp] at h
    cases h
  · rw [if_neg hp] at h ⊢
    have hmap := createPermsEvents_no_abort wo ps (by simpa using hp)
    cases hwo : wo (Event.createRole role.name role.description (ps.map (·.permission_name))) with
    | none =>
      rw [hwo] at h
      simp at h
    | some c =>
      refine ⟨?_, by simpa using hp⟩
      dsimp only
      rw [hmap]

theorem addRoleMembers_take (wo : WriteOracle) (rn : String) :
    ∀ ms : List Member, ∃ n : Nat,
      (addRoleMembers wo rn ms).1 =
        (ms.take n).map (fun m => Event.addUserToRole m.email rn)
  | [] => ⟨0, rfl⟩
  | m :: rest => by
    simp only [addRoleMembers]
    cases hwo : wo (Event.addUserToRole m.email rn) with
    | none => exact ⟨1, by simp [hwo]⟩
    | some c =>
      obtain ⟨n, hn⟩ := addRoleMembers_take wo rn rest
      exact ⟨n + 1, by simp [hwo, hn]⟩

theorem addTenantMembers_take (wo : WriteOracle) (tid : String) :
    ∀ ms : List Member, ∃ n : Nat,
      (addTenantMembers wo tid ms).1 =
        (ms.take n).map (fun m => Event.addUserToTenant tid m.email)
  | [] => ⟨0, rfl⟩
  | m :: rest => by
    simp only [addTenantMembers]
    cases hwo : wo (Event.addUserToTenant tid m.email) with
    | none => exact ⟨1, by simp [hwo]⟩
    | some c =>
      obtain ⟨n, hn⟩ := addTenantMembers_take wo tid rest
      exact ⟨n + 1, by simp [hwo, hn]⟩

theorem addRoleMembers_mem (wo : WriteOracle) (rn : String) (ms : List Member) :
    ∀ e ∈ (addRoleMembers wo rn ms).1, ∃ u, e = Event.addUserToRole u rn := by
  intro e he
  obtain ⟨n, hn⟩ := addRoleMembers_take wo rn ms
  rw [hn] at he
  obtain ⟨m, _, rfl⟩ := List.mem_map.1 he
  exact ⟨m.email, rfl⟩

theorem addTenantMembers_mem (wo : WriteOracle) (tid : String) (ms : List Member) :
    ∀ e ∈ (addTenantMembers wo tid ms).1, ∃ u, e = Event.addUserToTenant tid u := by
  intro e he
  obtain ⟨n, hn⟩ := addTenantMembers_take wo tid ms
  rw [hn] at he
  obtain ⟨m, _, rfl⟩ := List.mem_map.1 he
  exact ⟨m.email, rfl⟩

end AuthMig
namespace AuthMig

theorem processRoleLive_trace (wo : WriteOracle) (gp : String → List Permission)
    (gu : String → List Member) (role : Role) :
    (processRoleLive wo gp gu role).1 =
      Event.readPermissions role.id :: (create_descope_role_and_permissions wo role (gp role.id)).1 ∧
      (create_descope_role_and_permissions wo role (gp role.id)).2 = true ∨
    (processRoleLive wo gp gu role).1 =
      (Event.readPermissions role.id :: (create_descope_role_and_permissions wo role (gp role.id)).1) ++
      (Event.readRoleUsers role.id :: (addRoleMembers wo role.name (gu role.id)).1) ∧
      (create_descope_role_and_permissions wo role (gp role.id)).2 = false := by
  simp only [processRoleLive]
  by_cases hcr : (create_descope_role_and_permissions wo role (gp role.id)).2
  · rw [if_pos hcr]
    exact Or.inl ⟨rfl, hcr⟩
  · rw [if_neg hcr]
    exact Or.inr ⟨rfl, by simpa using hcr⟩

theorem head_crp_no_add (wo : WriteOracle) (role : Role) (ps : List Permission) :
    ∀ e ∈ Event.readPermissions role.id :: (create_descope_role_and_permissions wo role ps).1,
      addRoleKey e = Option.none := by
  intro e he
  rcases List.mem_cons.1 he with rfl | he
  · rfl
  · rcases crp_mem wo role ps e he with ⟨a, b, rfl⟩ | rfl <;> rfl

theorem processRoleLive_roleOrder (wo : WriteOracle) (gp : String → List Permission)
    (gu : String → List Member) (role : Role) :
    roleOrderOK ((processRoleLive wo gp gu role).1) := by
  rcases processRoleLive_trace wo gp gu role with ⟨ht, _⟩ | ⟨ht, hcr⟩
  · rw [ht]
    exact keyedBefore_of_no_later _ _ (head_crp_no_add wo role (gp role.id))
  · rw [ht]
    apply keyedBefore_block addRoleKey createRoleKey _ _ role.name
    · refine ⟨Event.createRole role.name role.description ((gp role.id).map (·.permission_name)),
        ?_, rfl⟩
      apply List.mem_cons_of_mem
      rw [(crp_no_abort wo role (gp role.id) hcr).1]
      exact List.mem_append_right _ (List.mem_singleton.2 rfl)
    · exact head_crp_no_add wo role (gp role.id)
    · intro e he k' hk'
      rcases List.mem_cons.1 he with rfl | he
      · cases hk'
      · obtain ⟨u, rfl⟩ := addRoleMembers_mem wo role.name (gu role.id) e he
        cases hk'
        rfl

theorem rolesLive_roleOrder (wo : WriteOracle) (gp : String → List Permission)
    (gu : String → List Member) : ∀ roles : List Role,
    roleOrderOK ((rolesLive wo gp gu roles).1)
  | [] => keyedBefore_of_no_later _ _ (fun e he => absurd he (List.not_mem_nil e))
  | r :: rest => by
    simp only [rolesLive]
    by_cases h : (processRoleLive wo gp gu r).2
    · rw [if_pos h]
      exact processRoleLive_roleOrder wo gp gu r
    · rw [if_neg h]
      dsimp only
      exact keyedBefore_append _ _ (processRoleLive_roleOrder wo gp gu r)
        (rolesLive_roleOrder wo gp gu rest)

theorem processOrgLive_tenantOrder (wo : WriteOracle) (gm : String → List Member)
    (org : Org) : tenantOrderOK ((processOrgLive wo gm org).1) := by
  simp only [processOrgLive]
  cases hwo : wo (Event.createTenant org.display_name org.id) with
  | none =>
    dsimp only
    apply keyedBefore_of_no_later
    intro e he
    rw [List.mem_singleton.1 he]
    rfl
  | some c =>
    dsimp only
    have hsplit : Event.createTenant org.display_name org.id ::
        Event.readOrgMembers org.id :: (addTenantMembers wo org.id (gm org.id)).1 =
        [Event.createTenant org.display_name org.id, Event.readOrgMembers org.id] ++
        (addTenantMembers wo org.id (gm org.id)).1 := rfl
    rw [hsplit]
    apply keyedBefore_block addTenantKey createTenantKey _ _ org.id
    · exact ⟨Event.createTenant org.display_name org.id, List.mem_cons_self _ _, rfl⟩
    · intro e he
      rcases List.mem_cons.1 he with rfl | he
      · rfl
      · rw [List.mem_singleton.1 he]
        rfl
    · intro e he k' hk'
      obtain ⟨u, rfl⟩ := addTenantMembers_mem wo org.id (gm org.id) e he
      cases hk'
      rfl

theorem orgsLive_tenantOrder (wo : WriteOracle) (gm : String → List Member) :
    ∀ orgs : List Org, tenantOrderOK ((orgsLive wo gm orgs).1)
  | [] => keyedBefore_of_no_later _ _ (fun e he => absurd he (List.not_mem_nil e))
  | o :: rest => by
    simp only [orgsLive]
    by_cases h : (processOrgLive wo gm o).2
    · rw [if_pos h]
      exact processOrgLive_tenantOrder wo gm o
    · rw [if_neg h]
      dsimp only
      exact keyedBefore_append _ _ (processOrgLive_tenantOrder wo gm o)
        (orgsLive_tenantOrder wo gm rest)

theorem processRoleLive_permBeforeAdd (wo : WriteOracle) (gp : String → List Permission)
    (gu : String → List Member) (role : Role) :
    permBeforeAddOK ((processRoleLive wo gp gu role).1) := by
  rcases processRoleLive_trace wo gp gu role with ⟨ht, _⟩ | ⟨ht, _⟩ <;> rw [ht]
  · intro i j a b u rn hi hj
    exfalso
    have hmem := List.mem_iff_getElem?.2 ⟨j, hj⟩
    rcases List.mem_cons.1 hmem with h | h
    · exact Event.noConfusion h
    · rcases crp_mem wo role (gp role.id) _ h with ⟨a', b', he⟩ | he <;>
        exact Event.noConfusion he
  · intro i j a b u rn hi hj
    refine zones_lt (fun e => ∃ u rn, e = Event.addUserToRole u rn)
      (fun e => ∃ a b, e = Event.createPermission a b) ?_ ?_ i j _ _ hi ⟨a, b, rfl⟩
      hj ⟨u, rn, rfl⟩
    · intro e he hQ
      obtain ⟨a', b', rfl⟩ := hQ
      rcases List.mem_cons.1 he with h | h
      · exact Event.noConfusion h
      · obtain ⟨u', he'⟩ := addRoleMembers_mem wo role.name (gu role.id) _ h
        exact Event.noConfusion he'
    · intro e he hP
      obtain ⟨u', rn', rfl⟩ := hP
      rcases List.mem_cons.1 he with h | h
      · exact Event.noConfusion h
      · rcases crp_mem wo role (gp role.id) _ h with ⟨a', b', he'⟩ | he' <;>
          exact Event.noConfusion he'

end AuthMig
namespace AuthMig

theorem filter_head_crp_nil (wo : WriteOracle) (role : Role) (ps : List Permission) :
    (Event.readPermissions role.id ::
      (create_descope_role_and_permissions wo role ps).1).filter isAddRoleEv = [] := by
  rw [List.filter_eq_nil_iff]
  intro e he
  rcases List.mem_cons.1 he with rfl | he
  · simp [isAddRoleEv]
  · rcases crp_mem wo role ps e he with ⟨a, b, rfl⟩ | rfl <;> simp [isAddRoleEv]

theorem processRoleLive_filter (wo : WriteOracle) (gp : String → List Permission)
    (gu : String → List Member) (role : Role) :
    ∃ n : Nat, ((processRoleLive wo gp gu role).1.filter isAddRoleEv) =
      ((gu role.id).take n).map (fun m => Event.addUserToRole m.email role.name) := by
  rcases processRoleLive_trace wo gp gu role with ⟨ht, _⟩ | ⟨ht, _⟩ <;> rw [ht]
  · exact ⟨0, by simp [filter_head_crp_nil wo role (gp role.id)]⟩
  · obtain ⟨n, hn⟩ := addRoleMembers_take wo role.name (gu role.id)
    refine ⟨n, ?_⟩
    rw [List.filter_append, filter_head_crp_nil wo role (gp role.id),
      List.filter_cons_of_neg (by simp [isAddRoleEv]), hn,
      List.filter_eq_self.2 ?_]
    · simp
    · intro e he
      obtain ⟨m, _, rfl⟩ := List.mem_map.1 he
      rfl

theorem processOrgLive_filter (wo : WriteOracle) (gm : String → List Member) (org : Org) :
    ∃ n : Nat, ((processOrgLive wo gm org).1.filter isAddTenantEv) =
      ((gm org.id).take n).map (fun m => Event.addUserToTenant org.id m.email) := by
  simp only [processOrgLive]
  cases hwo : wo (Event.createTenant org.display_name org.id) with
  | none =>
    exact ⟨0, by simp [isAddTenantEv]⟩
  | some c =>
    dsimp only
    obtain ⟨n, hn⟩ := addTenantMembers_take wo org.id (gm org.id)
    refine ⟨n, ?_⟩
    rw [List.filter_cons_of_neg (by simp [isAddTenantEv]),
      List.filter_cons_of_neg (by simp [isAddTenantEv]), hn,
      List.filter_eq_self.2 ?_]
    intro e he
    obtain ⟨m, _, rfl⟩ := List.mem_map.1 he
    rfl

/-- C8: in live mode every role-membership write is strictly preceded by
the create write of that role, within each role's processing block every
permission-create write precedes every membership write, and every
tenant-membership write is strictly preceded by the create write of that
tenant: no member association is ever written before its parent resource. -/
theorem C8_parent_before_membership (wo : WriteOracle) (gp : String → List Permission)
    (gu gm : String → List Member) (roles : List Role) (orgs : List Org) :
    roleOrderOK ((process_roles_run wo gp gu roles false).1.1) ∧
    (∀ role : Role, permBeforeAddOK ((processRoleLive wo gp gu role).1)) ∧
    tenantOrderOK ((process_auth0_organizations_run wo gm orgs false).1.1) :=
  ⟨rolesLive_roleOrder wo gp gu roles,
   fun role => processRoleLive_permBeforeAdd wo gp gu role,
   orgsLive_tenantOrder wo gm orgs⟩

/-- C9: every permission of a role's batch is created before the role
itself, and the role-create request carries the name of every permission of
the batch — including names of permissions whose own create call failed,
since the name list is built before and independently of the write
outcomes. -/
theorem C9_role_carries_all_permission_names (wo : WriteOracle) (role : Role)
    (permissions : List Permission) :
    (∀ (j : Nat) (n d : String) (ps : List String),
      (create_descope_role_and_permissions wo role permissions).1[j]? =
        Option.some (Event.createRole n d ps) →
      n = role.name ∧ d = role.description ∧
        ps = permissions.map (·.permission_name)) ∧
    (∀ (i j : Nat) (a b n d : String) (ps : List String),
      (create_descope_role_and_permissions wo role permissions).1[i]? =
        Option.some (Event.createPermission a b) →
      (create_descope_role_and_permissions wo role permissions).1[j]? =
        Option.some (Event.createRole n d ps) → i < j) ∧
    ((create_descope_role_and_permissions wo role permissions).2 = false →
      (create_descope_role_and_permissions wo role permissions).1 =
        permissions.map (fun p => Event.createPermission p.permission_name p.description)
        ++ [Event.createRole role.name role.description
              (permissions.map (·.permission_name))]) := by
  refine ⟨?_, ?_, fun h => (crp_no_abort wo role permissions h).1⟩
  · intro j n d ps hj
    have hmem := List.mem_iff_getElem?.2 ⟨j, hj⟩
    rcases crp_mem wo role permissions _ hmem with ⟨a, b, he⟩ | he
    · exact Event.noConfusion he
    · injection he with h1 h2 h3
      exact ⟨h1, h2, h3⟩
  · intro i j a b n d ps hi hj
    rcases crp_trace wo role permissions with h | h <;> rw [h] at hi hj
    · exfalso
      have hmem := List.mem_iff_getElem?.2 ⟨j, hj⟩
      obtain ⟨a', b', he⟩ := createPermsEvents_mem wo permissions _ hmem
      exact Event.noConfusion he
    · refine zones_lt (fun e => ∃ n d ps, e = Event.createRole n d ps)
        (fun e => ∃ a b, e = Event.createPermission a b) ?_ ?_ i j _ _ hi ⟨a, b, rfl⟩
        hj ⟨n, d, ps, rfl⟩
      · intro e he hQ
        obtain ⟨a', b', rfl⟩ := hQ
        exact Event.noConfusion (List.mem_singleton.1 he)
      · intro e he hP
        obtain ⟨n', d', ps', rfl⟩ := hP
        obtain ⟨a', b', he'⟩ := createPermsEvents_mem wo permissions _ he
        exact Event.noConfusion he'

/-- C10: every role-membership and tenant-membership write in live mode
uses the member record's raw email field as the loginId, regardless of the
canonicalization branch that named the user at creation time; for an
SMS-identity user the resolved loginId is the phone number, which differs
from the email the association uses. -/
theorem C10_membership_uses_raw_email (wo : WriteOracle) (gp : String → List Permission)
    (gu gm : String → List Member) (role : Role) (org : Org) :
    (∃ n : Nat, ((processRoleLive wo gp gu role).1.filter isAddRoleEv) =
      ((gu role.id).take n).map (fun m => Event.addUserToRole m.email role.name)) ∧
    (∃ n : Nat, ((processOrgLive wo gm org).1.filter isAddTenantEv) =
      ((gm org.id).take n).map (fun m => Event.addUserToTenant org.id m.email)) ∧
    derive_loginId smsUser smsIdent = Option.some "+15551234567" ∧
    derive_loginId smsUser smsIdent ≠ smsUser.email :=
  ⟨processRoleLive_filter wo gp gu role, processOrgLive_filter wo gm org, rfl, by decide⟩

end AuthMig
